import Mathlib

/-!
Verification of the SmoothRPC protocol engine (`smooth_rpc/smoothrpc.py` and
`smooth_rpc/network.py`) against its natural-language specification.

The development is a shallow embedding in two layers, mirroring the source:

* a byte-stream layer for `AsyncNetworkConnection.send_message` /
  `recv_message` and the per-connection serve loop
  `SmoothRPCHost.accept_connection` (bytes are `Nat` values, with the
  constraint `< 256` stated where it matters);
* an envelope/dispatch layer for pickling, `SmoothRPCHost._unpack_call`,
  `_pack_result`, `_call_command`, `_handle_one_command`, the client wrappers
  built by `instrument_client_commands`, and registration via
  `_iterate_functions` / `register_commands`.

Pickled frame payloads are modelled at the object level: a payload is either
a well-formed pickle of a Python value (`Payload.pickled`) or undecodable
bytes (`Payload.garbage`), which is exactly the distinction `pickle.loads`
gives the code.
-/

namespace SmoothRPC

/-- Exceptions raised or transported by the library, one constructor per
class in `smooth_rpc/exceptions.py`, plus `appError` for an arbitrary
application exception raised by a handler (identified by its kind and
message). Constructor arguments mirror the arguments the source passes. -/
inductive Exc where
  | rpcProtocolError (msg : String)
  | rpcNoSuchApiError (msg : String) (func_name : String)
  | rpcInvalidVersionError (msg : String) (api_version : Int)
  | rpcApiVersionMismatchError (msg : String)
  | rpcSerializationError (msg : String)
  | rpcDecoratorError (msg : String)
  | rpcMaxSizeExceededError (msg : String) (size : Nat) (limit : Nat)
  | rpcInternalError (msg : String)
  | appError (kind : String) (msg : String)
deriving DecidableEq, Repr

/-- True exactly for the `RpcProtocolError` kind. -/
def Exc.isProtocolError : Exc → Bool
  | .rpcProtocolError _ => true
  | _ => false

/-- True exactly for the `RpcDecoratorError` kind. -/
def Exc.isDecoratorError : Exc → Bool
  | .rpcDecoratorError _ => true
  | _ => false

/-- Python values that travel through the RPC layer: `None`, ints, strings,
exception instances, an `ApiCall` object (fields inlined), and values that
`pickle.dumps` rejects (such as the instance of a function-local class used
by the repository's tests). -/
inductive PyObj where
  | pyNone
  | pyInt (n : Int)
  | pyStr (s : String)
  | exc (e : Exc)
  | unpicklable (tag : String)
  | apiCallObj (func_name : String) (api_version : Int)
      (args : List PyObj) (kwargs : List (String × PyObj))

/-- True exactly when the value is an exception instance
(`isinstance(out, Exception)` in the source). -/
def PyObj.isException : PyObj → Bool
  | .exc _ => true
  | _ => false

mutual

/-- Whether `pickle.dumps` succeeds on the value; it recurses into the
arguments of an `ApiCall` object and fails on any `unpicklable` part. -/
def picklable : PyObj → Bool
  | .pyNone => true
  | .pyInt _ => true
  | .pyStr _ => true
  | .exc _ => true
  | .unpicklable _ => false
  | .apiCallObj _ _ args kwargs => picklableList args && picklableKw kwargs

/-- `picklable` on every element of a list. -/
def picklableList : List PyObj → Bool
  | [] => true
  | x :: xs => picklable x && picklableList xs

/-- `picklable` on every value of a keyword-argument list. -/
def picklableKw : List (String × PyObj) → Bool
  | [] => true
  | kv :: xs => picklable kv.2 && picklableKw xs

end

/-- The payload of one frame, seen through `pickle`: either the pickle of a
value, or bytes that `pickle.loads` raises on. -/
inductive Payload where
  | pickled (v : PyObj)
  | garbage (raw : String)

/-- `VersionRange` from `smoothrpc.py`: a closed range with optional ends. -/
structure VersionRange where
  min_version : Option Int
  max_version : Option Int
deriving DecidableEq, Repr

/-- Membership test of `VersionRange.__contains__` (for `int` arguments):
`(min_version is None or min_version <= version) and
 (max_version is None or version <= max_version)`. -/
def VersionRange.contains (r : VersionRange) (version : Int) : Bool :=
  (match r.min_version with
   | none => true
   | some m => decide (m ≤ version)) &&
  (match r.max_version with
   | none => true
   | some m => decide (version ≤ m))

/-- `ApiCall` from `smoothrpc.py`: the network object sent from client to
host. -/
structure ApiCall where
  func_name : String
  api_version : Int
  args : List PyObj
  kwargs : List (String × PyObj)

/-- A bound handler held in the host's command table: invoked with the
positional and keyword arguments of the call, it either returns a value or
raises an exception. -/
def Handler : Type := List PyObj → List (String × PyObj) → Except Exc PyObj

/-- The host's command table `self.commands`: exposed name to the list of
`(version_range, bound_function)` pairs in registration order (Python dicts
preserve insertion order; `setdefault(...).append` appends). -/
def Commands : Type := List (String × List (VersionRange × Handler))

/-- Dict lookup `self.commands[name]` on the association-list model. -/
def lookupCommands : Commands → String → Option (List (VersionRange × Handler))
  | [], _ => none
  | (k, v) :: rest, name => if k = name then some v else lookupCommands rest name

/-- The `for ... if call_obj.api_version in version_range: break` scan of
`_call_command`: first pair whose range contains the version. -/
def findMatching : List (VersionRange × Handler) → Int → Option Handler
  | [], _ => none
  | (r, f) :: rest, v => if r.contains v then some f else findMatching rest v

/-- `SmoothRPCHost._call_command`: look the name up (raising
`RpcNoSuchApiError` on `KeyError`), scan for the first version match
(raising `RpcInvalidVersionError` if the loop falls through), then invoke
the bound function with the call's args and kwargs. -/
def call_command (cs : Commands) (call_obj : ApiCall) : Except Exc PyObj :=
  match lookupCommands cs call_obj.func_name with
  | none => .error (.rpcNoSuchApiError "No such api" call_obj.func_name)
  | some version_list =>
    match findMatching version_list call_obj.api_version with
    | none => .error (.rpcInvalidVersionError "Api endpoint does not support api version" call_obj.api_version)
    | some f => f call_obj.args call_obj.kwargs

/-- `SmoothRPCHost._pack_result`: `pickle.dumps(obj)`, or on a pickling
failure the pickle of `RpcSerializationError("Could not pickle object", exc)`
(an exception instance, itself always picklable). -/
def pack_result (obj : PyObj) : Payload :=
  if picklable obj then .pickled obj
  else .pickled (.exc (.rpcSerializationError "Could not pickle object"))

/-- `SmoothRPCHost._unpack_call`: `pickle.loads` (raising
`RpcProtocolError` on undecodable bytes), then an `isinstance(_, ApiCall)`
check (raising `RpcProtocolError` on any other object). -/
def unpack_call : Payload → Except Exc ApiCall
  | .garbage _ => .error (.rpcProtocolError "Failed to unpickle received data")
  | .pickled v =>
    match v with
    | .apiCallObj fn av args kwargs => .ok ⟨fn, av, args, kwargs⟩
    | _ => .error (.rpcProtocolError "Invalid object received")

/-- `SmoothRPCHost._handle_one_command` after the frame has been received:
unpack the call (its protocol errors propagate upwards, before the `try`),
run `_call_command` inside `except Exception as exc: out = exc`, pack the
result, and send it; the sent payload is the `ok` value. -/
def handle_one_command (cs : Commands) (in_data : Payload) : Except Exc Payload :=
  match unpack_call in_data with
  | .error e => .error e
  | .ok call_obj =>
    let out : PyObj :=
      match call_command cs call_obj with
      | .ok v => v
      | .error exc => .exc exc
    .ok (pack_result out)

/-- The `while True: await self._handle_one_command(connection)` body of
`SmoothRPCHost.accept_connection`, at the granularity of already-framed
payloads: returns the responses sent and, if an iteration raised, the
exception that ended the loop (`none` means every payload was served). -/
def serve_payloads (cs : Commands) : List Payload → List Payload × Option Exc
  | [] => ([], none)
  | p :: rest =>
    match handle_one_command cs p with
    | .error e => ([], some e)
    | .ok resp =>
      let out := serve_payloads cs rest
      (resp :: out.1, out.2)

/-- The body of `_create_call_wrapper.do_call` after the response frame
arrived: unpickling failure raises `RpcProtocolError`; a received exception
instance is re-raised; anything else is returned. -/
def client_decode_response : Payload → Except Exc PyObj
  | .garbage _ => .error (.rpcProtocolError "Received response that could not be unpickled")
  | .pickled out =>
    match out with
    | .exc e => .error e
    | v => .ok v

/-- The stub that `instrument_client_commands` installs in place of a marked
method: either the network-calling wrapper of `_create_call_wrapper`
(remembering the exposed name and api version it closes over), or the
immediately-raising wrapper of `_create_exception_wrapper`. -/
inductive ClientStub where
  | remoteCall (func_name : String) (api_version : Int)
  | throwMismatch

/-- The `if api_version in version_range` choice inside
`instrument_client_commands` between `_create_call_wrapper` and
`_create_exception_wrapper`. -/
def create_wrapper (api_version : Int) (func_name : String) (version_range : VersionRange) : ClientStub :=
  if version_range.contains api_version then .remoteCall func_name api_version
  else .throwMismatch

/-- Invoking an installed stub with args/kwargs: the first component is the
list of frame payloads the invocation sends over the connection.
`do_throw` raises `RpcApiVersionMismatchError` sending nothing; `do_call`
sends the pickled `ApiCall` and decodes the response payload it receives. -/
def invoke_stub (stub : ClientStub) (args : List PyObj) (kwargs : List (String × PyObj))
    (response : Payload) : List Payload × Except Exc PyObj :=
  match stub with
  | .throwMismatch =>
    ([], .error (.rpcApiVersionMismatchError "Client API disabled due to api version restriction."))
  | .remoteCall fn av =>
    ([.pickled (.apiCallObj fn av args kwargs)], client_decode_response response)

/-! ## Registration and discovery (`_iterate_functions`, `register_commands`) -/

/-- `ApiFunctionSpec` from `smoothrpc.py`, as stored by the `api`
decorator. -/
structure ApiFunctionSpec where
  name : Option String
  version_range : VersionRange

/-- The `__is_part_of_smooth_api` attribute of a method: absent, a proper
`ApiFunctionSpec`, or present with the wrong type (the broken-decorator case
of the repository's tests). -/
inductive Marking where
  | unmarked
  | marked (spec : ApiFunctionSpec)
  | markedMalformed (tag : String)

/-- One method as seen while walking the MRO in `_iterate_functions`: its
attribute name, whether it is an `async def` (`inspect.iscoroutinefunction`),
and its marking. -/
structure MethodDef where
  org_name : String
  isAsync : Bool
  marking : Marking

/-- One `(func_object_name, func_name, version_range)` triple yielded by
`_iterate_functions` (the function object itself carries no further data the
claims need). -/
structure DiscoveredEndpoint where
  org_name : String
  func_name : String
  version_range : VersionRange

/-- `_iterate_functions`, over the sequence of methods produced by the
`for superclass in __mro__: for name, func in superclass.__dict__.items()`
double loop, in that iteration order (most-derived type first, declaration
order within a type). Unmarked methods are skipped; a marked method that is
not async raises `RpcDecoratorError("Not an async function")` (this check
comes first in the source); a marking that is not an `ApiFunctionSpec`
raises `RpcDecoratorError("Decorator malfunction")`; otherwise the endpoint
is yielded with `func_name = api_spec.name or func_object_name`. -/
def iterate_functions : List MethodDef → Except Exc (List DiscoveredEndpoint)
  | [] => .ok []
  | m :: rest =>
    match m.marking with
    | .unmarked => iterate_functions rest
    | .marked spec =>
      if m.isAsync then
        match iterate_functions rest with
        | .error e => .error e
        | .ok eps => .ok (⟨m.org_name, spec.name.getD m.org_name, spec.version_range⟩ :: eps)
      else .error (.rpcDecoratorError "Not an async function")
    | .markedMalformed _ =>
      if m.isAsync then .error (.rpcDecoratorError "Decorator malfunction")
      else .error (.rpcDecoratorError "Not an async function")

/-- `SmoothRPCHost.register_commands`: run discovery, counting the
endpoints; if the count is zero raise
`RpcDecoratorError("No decorated functions found")`; otherwise the
discovered endpoints are appended to the table (returned here). -/
def register_commands (methods : List MethodDef) : Except Exc (List DiscoveredEndpoint) :=
  match iterate_functions methods with
  | .error e => .error e
  | .ok eps =>
    if eps.length = 0 then .error (.rpcDecoratorError "No decorated functions found")
    else .ok eps

/-- `instrument_client_commands` for one command object: each discovered
endpoint's original method is replaced by the stub `create_wrapper`
chooses. -/
def instrument_client_commands (api_version : Int) (eps : List DiscoveredEndpoint) :
    List (String × ClientStub) :=
  eps.map fun ep => (ep.org_name, create_wrapper api_version ep.func_name ep.version_range)

/-- A method whose marking misuses the decorator: marked (well- or
mal-formed) but not async, or marked with data that is not an
`ApiFunctionSpec`. -/
def MethodDef.isBadMethod (m : MethodDef) : Bool :=
  match m.marking with
  | .unmarked => false
  | .marked _ => !m.isAsync
  | .markedMalformed _ => true

/-- A method carrying any `__is_part_of_smooth_api` attribute. -/
def MethodDef.isMarked (m : MethodDef) : Bool :=
  match m.marking with
  | .unmarked => false
  | _ => true

/-! ## Byte-stream layer (`network.py`) -/

/-- `AsyncNetworkConnection.MAX_MSG_SIZE`: 10 MiB. -/
def MAX_MSG_SIZE : Nat := 10 * 1024 * 1024

/-- `int.to_bytes(width)`: big-endian, fixed width (the source uses
`len(data).to_bytes(8)`). -/
def toBytesBE : Nat → Nat → List Nat
  | 0, _ => []
  | w + 1, n => toBytesBE w (n / 256) ++ [n % 256]

/-- `int.from_bytes`: big-endian. -/
def fromBytesBE (bs : List Nat) : Nat :=
  bs.foldl (fun acc b => acc * 256 + b) 0

/-- `AsyncNetworkConnection.send_message`: raise
`RpcMaxSizeExceededError` before writing anything if the payload exceeds
`MAX_MSG_SIZE`, else write the 8-byte big-endian length directly followed by
the payload. The first component is the byte sequence actually written. -/
def send_message (data : List Nat) : List Nat × Option Exc :=
  if data.length > MAX_MSG_SIZE then
    ([], some (.rpcMaxSizeExceededError "Trying to send message larger than allowed size on %s"
      data.length MAX_MSG_SIZE))
  else (toBytesBE 8 data.length ++ data, none)

/-- The outcomes of `AsyncNetworkConnection.recv_message` on a stream whose
remaining bytes are `s` (the stream is at EOF after them): a successful
read returning the payload and the rest of the stream, or one of the raises:
the normal-close `IncompleteReadError` (EOF, zero header bytes read), an
`IncompleteReadError` after 1-7 header bytes, `RpcMaxSizeExceededError` for
an oversized announced length (the payload bytes left unconsumed in `rest`),
or an `IncompleteReadError` while reading the payload, carrying how many
bytes were expected and how many were actually readable. -/
inductive RecvResult where
  | ok (data : List Nat) (rest : List Nat)
  | normalClose
  | headerCut (got : Nat)
  | tooLarge (data_len : Nat) (rest : List Nat)
  | payloadCut (expected : Nat) (got : Nat)
deriving DecidableEq, Repr

/-- `AsyncNetworkConnection.recv_message`: `readexactly(8)` (distinguishing
EOF-with-zero-bytes from a cut header by `at_eof`/`partial`), decode the
length, reject lengths above `MAX_MSG_SIZE` before reading the payload, then
`readexactly(data_len)`. -/
def recv_message (s : List Nat) : RecvResult :=
  if s.length < 8 then
    if s.length = 0 then .normalClose else .headerCut s.length
  else
    let data_len := fromBytesBE (s.take 8)
    let rest := s.drop 8
    if data_len > MAX_MSG_SIZE then .tooLarge data_len rest
    else if rest.length < data_len then .payloadCut data_len rest.length
    else .ok (rest.take data_len) (rest.drop data_len)

/-- How `SmoothRPCHost.accept_connection` ended: the `IncompleteReadError`
suppressed as a normal close (`reader.at_eof() and len(exc.partial) == 0`),
or one of the propagating ends: an `IncompleteReadError` with a non-empty
`partial`, an oversized frame, or an exception raised while handling a
received frame (protocol errors, send failures). -/
inductive CloseKind where
  | normalClose
  | headerCut (got : Nat)
  | payloadCut (expected : Nat) (got : Nat)
  | msgTooLarge (data_len : Nat)
  | handlerError (e : Exc)
deriving DecidableEq, Repr

/-- `SmoothRPCHost.accept_connection` on one connection, at byte level:
`while True` receive a frame and hand its payload to `handle` (standing for
the unpack/dispatch/pack/send rest of `_handle_one_command`, whose `ok`
value is the response payload written back). An `IncompleteReadError` is
suppressed exactly when the reader is at EOF with an empty `partial`; every
other exception propagates. Returns the responses sent and how the loop
ended. -/
def accept_connection (handle : List Nat → Except Exc (List Nat)) (s : List Nat) :
    List (List Nat) × CloseKind :=
  match hr : recv_message s with
  | .normalClose => ([], .normalClose)
  | .headerCut got => ([], .headerCut got)
  | .tooLarge data_len _ => ([], .msgTooLarge data_len)
  | .payloadCut expected got =>
    if got = 0 then ([], .normalClose) else ([], .payloadCut expected got)
  | .ok data rest =>
    match handle data with
    | .error e => ([], .handlerError e)
    | .ok resp =>
      let out := accept_connection handle rest
      (resp :: out.1, out.2)
termination_by s.length
decreasing_by
  unfold recv_message at hr
  split at hr
  · split at hr <;> simp_all
  · rename_i h8
    dsimp only at hr
    split at hr
    · simp_all
    · split at hr
      · simp_all
      · simp only [RecvResult.ok.injEq] at hr
        obtain ⟨-, hrest⟩ := hr
        subst hrest
        simp only [List.length_drop]
        omega

/-- One frame as laid on the wire by `send_message`. -/
def frameOf (p : List Nat) : List Nat := toBytesBE 8 p.length ++ p

/-- A sequence of frames laid out back to back. -/
def framesOf : List (List Nat) → List Nat
  | [] => []
  | p :: ps => frameOf p ++ framesOf ps

/-! ## The two-endpoint example of the repository's test fixture -/

/-- The replacement `cmd2` of the test fixture (`@api(min_version=3)`). -/
def newCmd2Handler : Handler := fun _ _ => .ok (.pyStr "new")

/-- The old `cmd2` of the test fixture
(`@api(func_name="cmd2", max_version=2)`, registered second). -/
def oldCmd2Handler : Handler := fun _ _ => .ok (.pyStr "old")

/-- The command table after registering the fixture: both endpoints under
the exposed name `cmd2`, version range `min=3` first (most-derived type,
declaration order), unbounded-min `max=2` second. -/
def exampleTable : Commands :=
  [("cmd2", [(⟨some 3, none⟩, newCmd2Handler), (⟨none, some 2⟩, oldCmd2Handler)])]

/-! ## Frame-codec lemmas -/

theorem toBytesBE_length (w n : Nat) : (toBytesBE w n).length = w := by
  induction w generalizing n with
  | zero => rfl
  | succ w ih => simp [toBytesBE, ih]

theorem fromBytesBE_append_singleton (ys : List Nat) (b : Nat) :
    fromBytesBE (ys ++ [b]) = fromBytesBE ys * 256 + b := by
  simp [fromBytesBE, List.foldl_append]

theorem fromBytesBE_toBytesBE (w n : Nat) (h : n < 256 ^ w) :
    fromBytesBE (toBytesBE w n) = n := by
  induction w generalizing n with
  | zero =>
    simp only [pow_zero, Nat.lt_one_iff] at h
    simp [toBytesBE, fromBytesBE, h]
  | succ w ih =>
    have hdiv : n / 256 < 256 ^ w := by
      rw [Nat.div_lt_iff_lt_mul (by norm_num)]
      calc n < 256 ^ (w + 1) := h
        _ = 256 ^ w * 256 := by ring
    calc fromBytesBE (toBytesBE (w + 1) n)
        = fromBytesBE (toBytesBE w (n / 256) ++ [n % 256]) := rfl
      _ = fromBytesBE (toBytesBE w (n / 256)) * 256 + n % 256 :=
          fromBytesBE_append_singleton _ _
      _ = n / 256 * 256 + n % 256 := by rw [ih _ hdiv]
      _ = n := by omega

theorem toBytesBE_fromBytesBE (w : Nat) (bs : List Nat) (hlen : bs.length = w)
    (hlt : ∀ b ∈ bs, b < 256) : toBytesBE w (fromBytesBE bs) = bs := by
  induction w generalizing bs with
  | zero =>
    rw [List.length_eq_zero] at hlen
    simp [hlen, toBytesBE]
  | succ w ih =>
    have hne : bs ≠ [] := by
      intro hnil; rw [hnil] at hlen; simp at hlen
    obtain ⟨ys, b, rfl⟩ : ∃ ys b, bs = ys ++ [b] := by
      refine ⟨bs.dropLast, bs.getLast hne, ?_⟩
      exact (List.dropLast_append_getLast hne).symm
    have hyl : ys.length = w := by
      simpa using hlen
    have hb : b < 256 := hlt b (by simp)
    have hys : ∀ x ∈ ys, x < 256 := fun x hx => hlt x (by simp [hx])
    rw [fromBytesBE_append_singleton]
    show toBytesBE w ((fromBytesBE ys * 256 + b) / 256) ++
        [(fromBytesBE ys * 256 + b) % 256] = ys ++ [b]
    have h1 : (fromBytesBE ys * 256 + b) / 256 = fromBytesBE ys := by omega
    have h2 : (fromBytesBE ys * 256 + b) % 256 = b := by omega
    rw [h1, h2, ih ys hyl hys]

theorem toBytesBE_lt (w n : Nat) : ∀ b ∈ toBytesBE w n, b < 256 := by
  induction w generalizing n with
  | zero => simp [toBytesBE]
  | succ w ih =>
    intro b hb
    simp only [toBytesBE, List.mem_append, List.mem_singleton] at hb
    rcases hb with hb | hb
    · exact ih _ _ hb
    · subst hb; exact Nat.mod_lt _ (by norm_num)

theorem max_msg_size_lt : MAX_MSG_SIZE < 256 ^ 8 := by decide

/-- Reading from a stream that starts with the frame of a payload within the
size limit yields exactly that payload and leaves the rest of the stream. -/
theorem recv_frame (p t : List Nat) (hp : p.length ≤ MAX_MSG_SIZE) :
    recv_message (frameOf p ++ t) = .ok p t := by
  have hlen8 : (toBytesBE 8 p.length).length = 8 := toBytesBE_length 8 _
  have hsplit : frameOf p ++ t = toBytesBE 8 p.length ++ (p ++ t) := by
    simp [frameOf]
  rw [hsplit]
  have htot : (toBytesBE 8 p.length ++ (p ++ t)).length = 8 + (p.length + t.length) := by
    simp [hlen8]
  have htake : (toBytesBE 8 p.length ++ (p ++ t)).take 8 = toBytesBE 8 p.length := by
    rw [← hlen8]; exact List.take_left _ _
  have hdrop : (toBytesBE 8 p.length ++ (p ++ t)).drop 8 = p ++ t := by
    rw [← hlen8]; exact List.drop_left _ _
  have hfrom : fromBytesBE (toBytesBE 8 p.length) = p.length :=
    fromBytesBE_toBytesBE 8 _ (lt_of_le_of_lt hp max_msg_size_lt)
  unfold recv_message
  rw [if_neg (by omega)]
  simp only [htake, hdrop, hfrom]
  rw [if_neg (by omega), if_neg (by simp)]
  simp

/-! ## Serve-loop unfolding lemmas -/

theorem accept_connection_eq_normalClose (handle : List Nat → Except Exc (List Nat))
    {s : List Nat} (h : recv_message s = .normalClose) :
    accept_connection handle s = ([], .normalClose) := by
  rw [accept_connection]; split <;> simp_all

theorem accept_connection_eq_headerCut (handle : List Nat → Except Exc (List Nat))
    {s : List Nat} {got : Nat} (h : recv_message s = .headerCut got) :
    accept_connection handle s = ([], .headerCut got) := by
  rw [accept_connection]; split <;> simp_all

theorem accept_connection_eq_tooLarge (handle : List Nat → Except Exc (List Nat))
    {s rest : List Nat} {data_len : Nat} (h : recv_message s = .tooLarge data_len rest) :
    accept_connection handle s = ([], .msgTooLarge data_len) := by
  rw [accept_connection]; split <;> simp_all

theorem accept_connection_eq_payloadCut (handle : List Nat → Except Exc (List Nat))
    {s : List Nat} {expected got : Nat} (h : recv_message s = .payloadCut expected got) :
    accept_connection handle s =
      if got = 0 then ([], .normalClose) else ([], .payloadCut expected got) := by
  rw [accept_connection]; split <;> simp_all

theorem accept_connection_eq_ok (handle : List Nat → Except Exc (List Nat))
    {s data rest : List Nat} (h : recv_message s = .ok data rest) :
    accept_connection handle s =
      match handle data with
      | .error e => ([], .handlerError e)
      | .ok resp => (resp :: (accept_connection handle rest).1, (accept_connection handle rest).2) := by
  rw [accept_connection]
  split <;> simp_all

end SmoothRPC

namespace SmoothRPC

/-! ## Dispatcher lemmas -/

/-- The scan of `_call_command` picks the first pair whose range contains
the version. -/
theorem findMatching_eq_of_first (v : Int) (pre : List (VersionRange × Handler))
    (r : VersionRange) (f : Handler) (post : List (VersionRange × Handler))
    (hpre : ∀ x ∈ pre, x.1.contains v = false) (hr : r.contains v = true) :
    findMatching (pre ++ (r, f) :: post) v = some f := by
  induction pre with
  | nil => simp [findMatching, hr]
  | cons x rest ih =>
    have hx : x.1.contains v = false := hpre x (by simp)
    simp only [List.cons_append, findMatching, hx]
    exact ih fun y hy => hpre y (by simp [hy])

/-- If no registered range contains the version, the scan falls through. -/
theorem findMatching_eq_none (v : Int) (l : List (VersionRange × Handler))
    (h : ∀ x ∈ l, x.1.contains v = false) : findMatching l v = none := by
  induction l with
  | nil => rfl
  | cons x rest ih =>
    have hx : x.1.contains v = false := h x (by simp)
    simp only [findMatching, hx]
    exact ih fun y hy => h y (by simp [hy])

end SmoothRPC

namespace SmoothRPC

/-- Claim C2: for every built command table and every `ApiCall`, a name with
no table entry dispatches to an `RpcNoSuchApiError` outcome; otherwise the
first endpoint in registration order whose version range contains the
requested api version is invoked; if no registered range contains it the
outcome is `RpcInvalidVersionError`. In particular, with ranges `min=3`
(registered first) and `max=2` (registered second) under one name, version 2
resolves to the second endpoint and version 3 to the first. -/
theorem c2_dispatch_resolution :
    (∀ (cs : Commands) (c : ApiCall), lookupCommands cs c.func_name = none →
      call_command cs c = .error (.rpcNoSuchApiError "No such api" c.func_name)) ∧
    (∀ (cs : Commands) (c : ApiCall) (pre : List (VersionRange × Handler))
      (r : VersionRange) (f : Handler) (post : List (VersionRange × Handler)),
      lookupCommands cs c.func_name = some (pre ++ (r, f) :: post) →
      (∀ x ∈ pre, x.1.contains c.api_version = false) →
      r.contains c.api_version = true →
      call_command cs c = f c.args c.kwargs) ∧
    (∀ (cs : Commands) (c : ApiCall) (version_list : List (VersionRange × Handler)),
      lookupCommands cs c.func_name = some version_list →
      (∀ x ∈ version_list, x.1.contains c.api_version = false) →
      call_command cs c =
        .error (.rpcInvalidVersionError "Api endpoint does not support api version" c.api_version)) ∧
    (call_command exampleTable ⟨"cmd2", 2, [], []⟩ = .ok (.pyStr "old") ∧
     call_command exampleTable ⟨"cmd2", 3, [], []⟩ = .ok (.pyStr "new")) := by
  refine ⟨?_, ?_, ?_, ?_, ?_⟩
  · intro cs c h
    unfold call_command
    rw [h]
  · intro cs c pre r f post hlk hpre hr
    unfold call_command
    rw [hlk]
    dsimp only
    rw [findMatching_eq_of_first c.api_version pre r f post hpre hr]
  · intro cs c version_list hlk hnone
    unfold call_command
    rw [hlk]
    dsimp only
    rw [findMatching_eq_none c.api_version version_list hnone]
  · rfl
  · rfl

/-- Witness for C2 at concrete inputs: an unknown name, the fixture table at
version 2 (selecting the endpoint registered second), and a table whose only
range misses the requested version. -/
theorem c2_dispatch_resolution_witness :
    call_command [] ⟨"some_func", 3, [], []⟩ = .error (.rpcNoSuchApiError "No such api" "some_func") ∧
    call_command exampleTable ⟨"cmd2", 2, [], []⟩ = oldCmd2Handler [] [] ∧
    call_command [("inc_one", [(⟨some 3, none⟩, newCmd2Handler)])] ⟨"inc_one", 2, [], []⟩ =
      .error (.rpcInvalidVersionError "Api endpoint does not support api version" 2) := by
  refine ⟨?_, ?_, ?_⟩
  · exact c2_dispatch_resolution.1 [] ⟨"some_func", 3, [], []⟩ rfl
  · exact c2_dispatch_resolution.2.1 exampleTable ⟨"cmd2", 2, [], []⟩
      [(⟨some 3, none⟩, newCmd2Handler)] ⟨none, some 2⟩ oldCmd2Handler [] rfl
      (by intro x hx; simp only [List.mem_singleton] at hx; subst hx; rfl) rfl
  · exact c2_dispatch_resolution.2.2.1 [("inc_one", [(⟨some 3, none⟩, newCmd2Handler)])]
      ⟨"inc_one", 2, [], []⟩ [(⟨some 3, none⟩, newCmd2Handler)] rfl
      (by intro x hx; simp only [List.mem_singleton] at hx; subst hx; rfl)

/-- Claim C3: when the selected handler raises an exception, that exception
itself becomes the outcome (not wrapped in another error type): the host's
response is the pickle of the very exception the handler raised, and the
client stub that decodes it re-raises that same exception. -/
theorem c3_handler_exception_roundtrip :
    ∀ (cs : Commands) (c : ApiCall) (pre : List (VersionRange × Handler))
      (r : VersionRange) (f : Handler) (post : List (VersionRange × Handler)) (e : Exc),
      lookupCommands cs c.func_name = some (pre ++ (r, f) :: post) →
      (∀ x ∈ pre, x.1.contains c.api_version = false) →
      r.contains c.api_version = true →
      f c.args c.kwargs = .error e →
      handle_one_command cs (.pickled (.apiCallObj c.func_name c.api_version c.args c.kwargs)) =
        .ok (.pickled (.exc e)) ∧
      client_decode_response (.pickled (.exc e)) = .error e := by
  intro cs c pre r f post e hlk hpre hr hf
  have heta : (⟨c.func_name, c.api_version, c.args, c.kwargs⟩ : ApiCall) = c := rfl
  have hcall : call_command cs c = .error e := by
    unfold call_command
    rw [hlk]
    dsimp only
    rw [findMatching_eq_of_first c.api_version pre r f post hpre hr]
    dsimp only
    rw [hf]
  constructor
  · unfold handle_one_command unpack_call
    simp only [heta, hcall]
    rfl
  · rfl

/-- Witness for C3: a table with one unrestricted endpoint whose handler
raises `RuntimeError("frop")`. -/
theorem c3_handler_exception_roundtrip_witness :
    handle_one_command [("boom", [(⟨none, none⟩, fun _ _ => .error (.appError "RuntimeError" "frop"))])]
        (.pickled (.apiCallObj "boom" 1 [] [])) =
      .ok (.pickled (.exc (.appError "RuntimeError" "frop"))) ∧
    client_decode_response (.pickled (.exc (.appError "RuntimeError" "frop"))) =
      .error (.appError "RuntimeError" "frop") :=
  c3_handler_exception_roundtrip
    [("boom", [(⟨none, none⟩, fun _ _ => .error (.appError "RuntimeError" "frop"))])]
    ⟨"boom", 1, [], []⟩ [] ⟨none, none⟩ (fun _ _ => .error (.appError "RuntimeError" "frop")) []
    (.appError "RuntimeError" "frop") rfl (by simp) rfl rfl

/-- Claim C4: packing an outcome never raises: a success value whose
serialization fails is replaced by an encoded `RpcSerializationError`
outcome, and consequently the host produces a response payload for every
payload that decodes to a well-formed request. -/
theorem c4_pack_result_total :
    (∀ obj : PyObj, picklable obj = false →
      pack_result obj = .pickled (.exc (.rpcSerializationError "Could not pickle object"))) ∧
    (∀ (cs : Commands) (p : Payload) (c : ApiCall), unpack_call p = .ok c →
      ∃ resp : Payload, handle_one_command cs p = .ok resp) := by
  constructor
  · intro obj h
    unfold pack_result
    rw [h]
    rfl
  · intro cs p c h
    unfold handle_one_command
    rw [h]
    exact ⟨_, rfl⟩

/-- Witness for C4: the fixture's `unserializable` command returns the
instance of a function-local class; the packed outcome is the serialization
error, and the host still answers the request. -/
theorem c4_pack_result_total_witness :
    pack_result (.unpicklable "LocalClass") =
      .pickled (.exc (.rpcSerializationError "Could not pickle object")) ∧
    ∃ resp : Payload,
      handle_one_command [("unserializable", [(⟨none, none⟩, fun _ _ => .ok (.unpicklable "LocalClass"))])]
        (.pickled (.apiCallObj "unserializable" 2 [] [])) = .ok resp :=
  ⟨c4_pack_result_total.1 (.unpicklable "LocalClass") rfl,
   c4_pack_result_total.2 [("unserializable", [(⟨none, none⟩, fun _ _ => .ok (.unpicklable "LocalClass"))])]
     (.pickled (.apiCallObj "unserializable" 2 [] [])) ⟨"unserializable", 2, [], []⟩ rfl⟩

/-- Claim C7: the client stub classifies a decoded response value solely by
capability: it raises the value exactly when it is an exception instance and
returns it otherwise; hence a handler that successfully returns an exception
instance as its value has that value raised on the client as an error. -/
theorem c7_client_raises_iff_exception :
    (∀ v : PyObj, v.isException = false → client_decode_response (.pickled v) = .ok v) ∧
    (∀ e : Exc, client_decode_response (.pickled (.exc e)) = .error e) ∧
    (∀ (cs : Commands) (c : ApiCall) (pre : List (VersionRange × Handler))
      (r : VersionRange) (f : Handler) (post : List (VersionRange × Handler)) (e : Exc),
      lookupCommands cs c.func_name = some (pre ++ (r, f) :: post) →
      (∀ x ∈ pre, x.1.contains c.api_version = false) →
      r.contains c.api_version = true →
      f c.args c.kwargs = .ok (.exc e) →
      handle_one_command cs (.pickled (.apiCallObj c.func_name c.api_version c.args c.kwargs)) =
        .ok (.pickled (.exc e)) ∧
      client_decode_response (.pickled (.exc e)) = .error e) := by
  refine ⟨?_, ?_, ?_⟩
  · intro v hv
    cases v <;> first
      | rfl
      | simp [PyObj.isException] at hv
  · intro e
    rfl
  · intro cs c pre r f post e hlk hpre hr hf
    have heta : (⟨c.func_name, c.api_version, c.args, c.kwargs⟩ : ApiCall) = c := rfl
    have hcall : call_command cs c = .ok (.exc e) := by
      unfold call_command
      rw [hlk]
      dsimp only
      rw [findMatching_eq_of_first c.api_version pre r f post hpre hr]
      dsimp only
      rw [hf]
    constructor
    · unfold handle_one_command unpack_call
      simp only [heta, hcall]
      rfl
    · rfl

/-- Witness for C7: a plain value is returned; a handler success value that
is a `ValueError` instance comes back to the client raised. -/
theorem c7_client_raises_iff_exception_witness :
    client_decode_response (.pickled (.pyInt 42)) = .ok (.pyInt 42) ∧
    handle_one_command [("get_err", [(⟨none, none⟩, fun _ _ => .ok (.exc (.appError "ValueError" "x")))])]
        (.pickled (.apiCallObj "get_err" 1 [] [])) =
      .ok (.pickled (.exc (.appError "ValueError" "x"))) ∧
    client_decode_response (.pickled (.exc (.appError "ValueError" "x"))) =
      .error (.appError "ValueError" "x") := by
  refine ⟨c7_client_raises_iff_exception.1 (.pyInt 42) rfl, ?_, ?_⟩
  · exact (c7_client_raises_iff_exception.2.2
      [("get_err", [(⟨none, none⟩, fun _ _ => .ok (.exc (.appError "ValueError" "x")))])]
      ⟨"get_err", 1, [], []⟩ [] ⟨none, none⟩ (fun _ _ => .ok (.exc (.appError "ValueError" "x"))) []
      (.appError "ValueError" "x") rfl (by simp) rfl rfl).1
  · exact c7_client_raises_iff_exception.2.1 (.appError "ValueError" "x")

end SmoothRPC

namespace SmoothRPC

/-- Claim C9: for an endpoint whose version range does not contain the api
version used at instrumentation time, the installed stub is the
exception-raising wrapper; every invocation of it raises
`RpcApiVersionMismatchError` and sends nothing on the connection; and
`instrument_client_commands` installs exactly that stub for every such
discovered endpoint. -/
theorem c9_version_mismatch_stub :
    (∀ (api_version : Int) (func_name : String) (r : VersionRange),
      r.contains api_version = false →
      create_wrapper api_version func_name r = .throwMismatch ∧
      ∀ (args : List PyObj) (kwargs : List (String × PyObj)) (response : Payload),
        invoke_stub (create_wrapper api_version func_name r) args kwargs response =
          ([], .error (.rpcApiVersionMismatchError
            "Client API disabled due to api version restriction."))) ∧
    (∀ (api_version : Int) (eps : List DiscoveredEndpoint) (ep : DiscoveredEndpoint),
      ep ∈ eps → ep.version_range.contains api_version = false →
      (ep.org_name, ClientStub.throwMismatch) ∈ instrument_client_commands api_version eps) := by
  constructor
  · intro api_version func_name r h
    have hw : create_wrapper api_version func_name r = .throwMismatch := by
      unfold create_wrapper
      rw [h]
      rfl
    exact ⟨hw, fun args kwargs response => by rw [hw]; rfl⟩
  · intro api_version eps ep hmem h
    have : (ep.org_name, create_wrapper api_version ep.func_name ep.version_range) =
        (ep.org_name, ClientStub.throwMismatch) := by
      unfold create_wrapper
      rw [h]
      rfl
    unfold instrument_client_commands
    rw [← this]
    exact List.mem_map_of_mem _ hmem

/-- Witness for C9: the fixture's `inc_one` (`min_version=3`) instrumented
at api version 2, as in the repository's client tests. -/
theorem c9_version_mismatch_stub_witness :
    create_wrapper 2 "inc_one" ⟨some 3, none⟩ = .throwMismatch ∧
    invoke_stub (create_wrapper 2 "inc_one" ⟨some 3, none⟩) [.pyInt 3] [] (.garbage "unused") =
      ([], .error (.rpcApiVersionMismatchError
        "Client API disabled due to api version restriction.")) ∧
    ("inc_one", ClientStub.throwMismatch) ∈
      instrument_client_commands 2 [⟨"inc_one", "inc_one", ⟨some 3, none⟩⟩] := by
  refine ⟨?_, ?_, ?_⟩
  · exact (c9_version_mismatch_stub.1 2 "inc_one" ⟨some 3, none⟩ rfl).1
  · exact (c9_version_mismatch_stub.1 2 "inc_one" ⟨some 3, none⟩ rfl).2 [.pyInt 3] [] (.garbage "unused")
  · exact c9_version_mismatch_stub.2 2 [⟨"inc_one", "inc_one", ⟨some 3, none⟩⟩]
      ⟨"inc_one", "inc_one", ⟨some 3, none⟩⟩ (by simp) rfl

/-! ## Discovery lemmas for C10 -/

/-- Discovery fails exactly when some method in MRO iteration order misuses
the marking. -/
theorem iterate_functions_error_iff (ms : List MethodDef) :
    (∃ e, iterate_functions ms = .error e) ↔ ∃ m ∈ ms, m.isBadMethod = true := by
  induction ms with
  | nil => simp [iterate_functions]
  | cons m rest ih =>
    cases hmk : m.marking with
    | unmarked =>
      have hstep : iterate_functions (m :: rest) = iterate_functions rest := by
        simp [iterate_functions, hmk]
      rw [hstep, ih]
      constructor
      · rintro ⟨m', hm', hb'⟩
        exact ⟨m', List.mem_cons_of_mem _ hm', hb'⟩
      · rintro ⟨m', hm', hb'⟩
        rcases List.mem_cons.mp hm' with rfl | hm'
        · simp [MethodDef.isBadMethod, hmk] at hb'
        · exact ⟨m', hm', hb'⟩
    | marked spec =>
      cases ha : m.isAsync with
      | true =>
        have hbad : m.isBadMethod = false := by
          simp [MethodDef.isBadMethod, hmk, ha]
        rcases hit : iterate_functions rest with e' | eps'
        · have hstep : iterate_functions (m :: rest) = .error e' := by
            simp [iterate_functions, hmk, ha, hit]
          rw [hstep]
          constructor
          · intro _
            obtain ⟨m', hm', hb'⟩ := ih.mp ⟨e', hit⟩
            exact ⟨m', List.mem_cons_of_mem _ hm', hb'⟩
          · intro _
            exact ⟨e', rfl⟩
        · have hstep : iterate_functions (m :: rest) =
              .ok (⟨m.org_name, spec.name.getD m.org_name, spec.version_range⟩ :: eps') := by
            simp [iterate_functions, hmk, ha, hit]
          rw [hstep]
          constructor
          · rintro ⟨e, he⟩
            cases he
          · rintro ⟨m', hm', hb'⟩
            rcases List.mem_cons.mp hm' with rfl | hm'
            · rw [hbad] at hb'
              cases hb'
            · obtain ⟨e, he⟩ := ih.mpr ⟨m', hm', hb'⟩
              rw [he] at hit
              cases hit
      | false =>
        have hbad : m.isBadMethod = true := by
          simp [MethodDef.isBadMethod, hmk, ha]
        have hstep : iterate_functions (m :: rest) =
            .error (.rpcDecoratorError "Not an async function") := by
          simp [iterate_functions, hmk, ha]
        rw [hstep]
        exact ⟨fun _ => ⟨m, List.mem_cons_self _ _, hbad⟩, fun _ => ⟨_, rfl⟩⟩
    | markedMalformed tag =>
      have hbad : m.isBadMethod = true := by simp [MethodDef.isBadMethod, hmk]
      cases ha : m.isAsync with
      | true =>
        have hstep : iterate_functions (m :: rest) =
            .error (.rpcDecoratorError "Decorator malfunction") := by
          simp [iterate_functions, hmk, ha]
        rw [hstep]
        exact ⟨fun _ => ⟨m, List.mem_cons_self _ _, hbad⟩, fun _ => ⟨_, rfl⟩⟩
      | false =>
        have hstep : iterate_functions (m :: rest) =
            .error (.rpcDecoratorError "Not an async function") := by
          simp [iterate_functions, hmk, ha]
        rw [hstep]
        exact ⟨fun _ => ⟨m, List.mem_cons_self _ _, hbad⟩, fun _ => ⟨_, rfl⟩⟩

/-- When discovery succeeds, it yields zero endpoints exactly when no method
carries the marking. -/
theorem iterate_functions_nil_iff (ms : List MethodDef) (eps : List DiscoveredEndpoint)
    (h : iterate_functions ms = .ok eps) :
    (eps = [] ↔ ∀ m ∈ ms, m.isMarked = false) := by
  induction ms generalizing eps with
  | nil =>
    have h0 : iterate_functions [] = (.ok [] : Except Exc (List DiscoveredEndpoint)) := rfl
    rw [h0] at h
    obtain rfl := (Except.ok.inj h).symm
    simp
  | cons m rest ih =>
    cases hmk : m.marking with
    | unmarked =>
      have hstep : iterate_functions (m :: rest) = iterate_functions rest := by
        simp [iterate_functions, hmk]
      rw [hstep] at h
      rw [ih eps h]
      constructor
      · intro hall m' hm'
        rcases List.mem_cons.mp hm' with rfl | hm'
        · simp [MethodDef.isMarked, hmk]
        · exact hall m' hm'
      · intro hall m' hm'
        exact hall m' (List.mem_cons_of_mem _ hm')
    | marked spec =>
      cases ha : m.isAsync with
      | true =>
        rcases hit : iterate_functions rest with e' | eps'
        · have hstep : iterate_functions (m :: rest) = .error e' := by
            simp [iterate_functions, hmk, ha, hit]
          rw [hstep] at h
          cases h
        · have hstep : iterate_functions (m :: rest) =
              .ok (⟨m.org_name, spec.name.getD m.org_name, spec.version_range⟩ :: eps') := by
            simp [iterate_functions, hmk, ha, hit]
          rw [hstep] at h
          obtain rfl := (Except.ok.inj h).symm
          constructor
          · intro hc
            cases hc
          · intro hall
            have := hall m (List.mem_cons_self _ _)
            simp [MethodDef.isMarked, hmk] at this
      | false =>
        have hstep : iterate_functions (m :: rest) =
            .error (.rpcDecoratorError "Not an async function") := by
          simp [iterate_functions, hmk, ha]
        rw [hstep] at h
        cases h
    | markedMalformed tag =>
      cases ha : m.isAsync with
      | true =>
        have hstep : iterate_functions (m :: rest) =
            .error (.rpcDecoratorError "Decorator malfunction") := by
          simp [iterate_functions, hmk, ha]
        rw [hstep] at h
        cases h
      | false =>
        have hstep : iterate_functions (m :: rest) =
            .error (.rpcDecoratorError "Not an async function") := by
          simp [iterate_functions, hmk, ha]
        rw [hstep] at h
        cases h

/-- Every exception discovery raises is an `RpcDecoratorError`. -/
theorem iterate_functions_error_kind (ms : List MethodDef) (e : Exc)
    (h : iterate_functions ms = .error e) : e.isDecoratorError = true := by
  induction ms generalizing e with
  | nil => cases h
  | cons m rest ih =>
    cases hmk : m.marking with
    | unmarked =>
      have hstep : iterate_functions (m :: rest) = iterate_functions rest := by
        simp [iterate_functions, hmk]
      rw [hstep] at h
      exact ih e h
    | marked spec =>
      cases ha : m.isAsync with
      | true =>
        rcases hit : iterate_functions rest with e' | eps'
        · have hstep : iterate_functions (m :: rest) = .error e' := by
            simp [iterate_functions, hmk, ha, hit]
          rw [hstep] at h
          obtain rfl := Except.error.inj h
          exact ih _ hit
        · have hstep : iterate_functions (m :: rest) =
              .ok (⟨m.org_name, spec.name.getD m.org_name, spec.version_range⟩ :: eps') := by
            simp [iterate_functions, hmk, ha, hit]
          rw [hstep] at h
          cases h
      | false =>
        have hstep : iterate_functions (m :: rest) =
            .error (.rpcDecoratorError "Not an async function") := by
          simp [iterate_functions, hmk, ha]
        rw [hstep] at h
        obtain rfl := (Except.error.inj h).symm
        rfl
    | markedMalformed tag =>
      cases ha : m.isAsync with
      | true =>
        have hstep : iterate_functions (m :: rest) =
            .error (.rpcDecoratorError "Decorator malfunction") := by
          simp [iterate_functions, hmk, ha]
        rw [hstep] at h
        obtain rfl := (Except.error.inj h).symm
        rfl
      | false =>
        have hstep : iterate_functions (m :: rest) =
            .error (.rpcDecoratorError "Not an async function") := by
          simp [iterate_functions, hmk, ha]
        rw [hstep] at h
        obtain rfl := (Except.error.inj h).symm
        rfl

/-- Claim C10: registration raises exactly in the marking-misuse cases — a
marked method that is not async, a marking whose data is not an
`ApiFunctionSpec`, or discovery yielding zero endpoints — and whatever it
raises is an `RpcDecoratorError`, returned synchronously to the caller
(`register_commands` never touches a connection: it has no connection in
scope). -/
theorem c10_register_decorator_errors :
    ∀ methods : List MethodDef,
      ((∃ e, register_commands methods = .error e) ↔
        ((∃ m ∈ methods, m.isBadMethod = true) ∨ (∀ m ∈ methods, m.isMarked = false))) ∧
      (∀ e, register_commands methods = .error e → e.isDecoratorError = true) := by
  intro methods
  constructor
  · rcases hit : iterate_functions methods with e' | eps
    · have hstep : register_commands methods = .error e' := by
        simp [register_commands, hit]
      rw [hstep]
      have hbad := (iterate_functions_error_iff methods).mp ⟨e', hit⟩
      exact ⟨fun _ => Or.inl hbad, fun _ => ⟨e', rfl⟩⟩
    · by_cases hz : eps = []
      · subst hz
        have hstep : register_commands methods =
            .error (.rpcDecoratorError "No decorated functions found") := by
          simp [register_commands, hit]
        rw [hstep]
        have hall := (iterate_functions_nil_iff methods [] hit).mp rfl
        exact ⟨fun _ => Or.inr hall, fun _ => ⟨_, rfl⟩⟩
      · have hstep : register_commands methods = .ok eps := by
          simp [register_commands, hit, hz]
        rw [hstep]
        constructor
        · rintro ⟨e, he⟩
          cases he
        · rintro (⟨m', hm', hb'⟩ | hall)
          · obtain ⟨e, he⟩ := (iterate_functions_error_iff methods).mpr ⟨m', hm', hb'⟩
            rw [he] at hit
            cases hit
          · exact absurd ((iterate_functions_nil_iff methods eps hit).mpr hall) hz
  · intro e he
    rcases hit : iterate_functions methods with e' | eps
    · have hstep : register_commands methods = .error e' := by
        simp [register_commands, hit]
      rw [hstep] at he
      obtain rfl := Except.error.inj he
      exact iterate_functions_error_kind methods _ hit
    · by_cases hz : eps = []
      · subst hz
        have hstep : register_commands methods =
            .error (.rpcDecoratorError "No decorated functions found") := by
          simp [register_commands, hit]
        rw [hstep] at he
        obtain rfl := (Except.error.inj he).symm
        rfl
      · have hstep : register_commands methods = .ok eps := by
          simp [register_commands, hit, hz]
        rw [hstep] at he
        cases he

/-- Witness for C10: a marked sync method raises; a well-marked async method
registers; an object with no marked methods raises; a malformed marking
raises. -/
theorem c10_register_decorator_errors_witness :
    (∃ e, register_commands [⟨"cmd1", false, .marked ⟨none, ⟨none, none⟩⟩⟩] = .error e) ∧
    ¬(∃ e, register_commands [⟨"cmd4", true, .marked ⟨none, ⟨none, none⟩⟩⟩] = .error e) ∧
    (∃ e, register_commands ([] : List MethodDef) = .error e) ∧
    (∃ e, register_commands [⟨"cmd1", true, .markedMalformed "not-the-correct-thing"⟩] = .error e) ∧
    (∀ e, register_commands [⟨"cmd1", false, .marked ⟨none, ⟨none, none⟩⟩⟩] = .error e →
      e.isDecoratorError = true) := by
  refine ⟨?_, ?_, ?_, ?_, ?_⟩
  · exact (c10_register_decorator_errors [⟨"cmd1", false, .marked ⟨none, ⟨none, none⟩⟩⟩]).1.mpr
      (Or.inl ⟨⟨"cmd1", false, .marked ⟨none, ⟨none, none⟩⟩⟩, by simp, rfl⟩)
  · intro hc
    rcases (c10_register_decorator_errors [⟨"cmd4", true, .marked ⟨none, ⟨none, none⟩⟩⟩]).1.mp hc with
      ⟨m, hm, hb⟩ | hall
    · simp only [List.mem_singleton] at hm
      subst hm
      cases hb
    · have := hall ⟨"cmd4", true, .marked ⟨none, ⟨none, none⟩⟩⟩ (by simp)
      cases this
  · exact (c10_register_decorator_errors []).1.mpr (Or.inr (by simp))
  · exact (c10_register_decorator_errors [⟨"cmd1", true, .markedMalformed "not-the-correct-thing"⟩]).1.mpr
      (Or.inl ⟨⟨"cmd1", true, .markedMalformed "not-the-correct-thing"⟩, by simp, rfl⟩)
  · exact (c10_register_decorator_errors [⟨"cmd1", false, .marked ⟨none, ⟨none, none⟩⟩⟩]).2

end SmoothRPC

namespace SmoothRPC

/-- Counterexample to claim C1 as stated: a frame whose payload does not
unpickle, followed by a perfectly well-formed request, yields zero response
payloads (no `ProtocolError` outcome is sent back) and the serve loop ends
with a propagating exception instead of continuing to the next frame. -/
theorem c1_decode_failure_counterexample :
    (serve_payloads [] [.garbage "bork", .pickled (.apiCallObj "inc_one" 3 [.pyInt 1] [])]).1 = [] ∧
    (serve_payloads [] [.garbage "bork", .pickled (.apiCallObj "inc_one" 3 [.pyInt 1] [])]).2 ≠ none :=
  ⟨rfl, fun h => Option.noConfusion h⟩

/-- Claim C1, amended: when a received frame's payload fails to decode into
a well-formed `ApiCall` (undecodable bytes or a non-request object), the
host raises an `RpcProtocolError` which propagates out of
`_handle_one_command`: no error outcome is sent on the connection, the serve
loop ends there, and subsequent frames are not served. -/
theorem c1_decode_failure_kills_connection :
    ∀ (cs : Commands) (p : Payload) (e : Exc) (rest : List Payload),
      unpack_call p = .error e →
      handle_one_command cs p = .error e ∧
      serve_payloads cs (p :: rest) = ([], some e) ∧
      e.isProtocolError = true := by
  intro cs p e rest hup
  have h1 : handle_one_command cs p = .error e := by
    unfold handle_one_command
    rw [hup]
  refine ⟨h1, ?_, ?_⟩
  · unfold serve_payloads
    rw [h1]
  · cases p with
    | garbage raw =>
      obtain rfl := Except.error.inj hup
      rfl
    | pickled v =>
      cases v with
      | apiCallObj fn av args kwargs => simp [unpack_call] at hup
      | pyNone => obtain rfl := Except.error.inj hup; rfl
      | pyInt n => obtain rfl := Except.error.inj hup; rfl
      | pyStr s => obtain rfl := Except.error.inj hup; rfl
      | exc e2 => obtain rfl := Except.error.inj hup; rfl
      | unpicklable tag => obtain rfl := Except.error.inj hup; rfl

/-- Witness for the amended C1: the undecodable payload of the repository's
own test. -/
theorem c1_decode_failure_kills_connection_witness :
    handle_one_command [] (.garbage "bork") =
      .error (.rpcProtocolError "Failed to unpickle received data") ∧
    serve_payloads [] [.garbage "bork"] =
      ([], some (.rpcProtocolError "Failed to unpickle received data")) ∧
    (Exc.rpcProtocolError "Failed to unpickle received data").isProtocolError = true :=
  c1_decode_failure_kills_connection [] (.garbage "bork")
    (.rpcProtocolError "Failed to unpickle received data") [] rfl

/-- Claim C5 evaluated at the failing input: a stream that ends right after
a complete 8-byte header announcing a 1-byte payload is suppressed by
`accept_connection` as a normal close (the `IncompleteReadError` from the
payload read carries an empty `partial` at EOF, which the
`not reader.at_eof() or len(exc.partial) > 0` re-raise condition lets
through), even though the claim and the code's own normal-close comment call
this a fatal protocol violation. In contrast, a stream that ends one byte
short of a 2-byte payload, or inside the header, does propagate the
error. -/
theorem c5_payload_eof_suppressed :
    recv_message [0, 0, 0, 0, 0, 0, 0, 1] = .payloadCut 1 0 ∧
    accept_connection (fun p => .ok p) [0, 0, 0, 0, 0, 0, 0, 1] = ([], .normalClose) ∧
    accept_connection (fun p => .ok p) [0, 0, 0, 0, 0, 0, 0, 2, 99] = ([], .payloadCut 2 1) ∧
    accept_connection (fun p => .ok p) [120] = ([], .headerCut 1) := by
  refine ⟨by decide, ?_, ?_, ?_⟩
  · rw [accept_connection_eq_payloadCut (fun p => .ok p)
      (show recv_message [0, 0, 0, 0, 0, 0, 0, 1] = .payloadCut 1 0 by decide)]
    rfl
  · rw [accept_connection_eq_payloadCut (fun p => .ok p)
      (show recv_message [0, 0, 0, 0, 0, 0, 0, 2, 99] = .payloadCut 2 1 by decide)]
    rfl
  · exact accept_connection_eq_headerCut (fun p => .ok p) (by decide)

/-- Claim C6: sending a payload strictly larger than `MAX_MSG_SIZE` fails
with `RpcMaxSizeExceededError` before any byte is written; receiving a frame
whose decoded length field is strictly larger fails with the same error kind
before the payload is consumed; and a payload of exactly `MAX_MSG_SIZE`
succeeds on both paths. -/
theorem c6_size_limit :
    (∀ data : List Nat, data.length > MAX_MSG_SIZE →
      send_message data = ([], some (.rpcMaxSizeExceededError
        "Trying to send message larger than allowed size on %s" data.length MAX_MSG_SIZE))) ∧
    (∀ s : List Nat, 8 ≤ s.length → fromBytesBE (s.take 8) > MAX_MSG_SIZE →
      recv_message s = .tooLarge (fromBytesBE (s.take 8)) (s.drop 8)) ∧
    (∀ data : List Nat, data.length = MAX_MSG_SIZE → (send_message data).2 = none) ∧
    (∀ data rest : List Nat, data.length = MAX_MSG_SIZE →
      recv_message (frameOf data ++ rest) = .ok data rest) := by
  refine ⟨?_, ?_, ?_, ?_⟩
  · intro data h
    unfold send_message
    rw [if_pos h]
  · intro s h8 hbig
    unfold recv_message
    rw [if_neg (by omega)]
    dsimp only
    rw [if_pos hbig]
  · intro data h
    unfold send_message
    rw [if_neg (by omega)]
  · intro data rest h
    exact recv_frame data rest (le_of_eq h)

/-- Witness for C6 at concrete sizes: `MAX_MSG_SIZE + 1` zero bytes rejected
on send, a header announcing `MAX_MSG_SIZE + 1` rejected on receive, and
exactly `MAX_MSG_SIZE` zero bytes accepted on both paths. -/
theorem c6_size_limit_witness :
    send_message (List.replicate (MAX_MSG_SIZE + 1) 0) =
      ([], some (.rpcMaxSizeExceededError
        "Trying to send message larger than allowed size on %s" (MAX_MSG_SIZE + 1) MAX_MSG_SIZE)) ∧
    recv_message [0, 0, 0, 0, 0, 160, 0, 1] = .tooLarge 10485761 [] ∧
    (send_message (List.replicate MAX_MSG_SIZE 0)).2 = none ∧
    recv_message (frameOf (List.replicate MAX_MSG_SIZE 0) ++ [9]) =
      .ok (List.replicate MAX_MSG_SIZE 0) [9] := by
  refine ⟨?_, ?_, ?_, ?_⟩
  · simpa using c6_size_limit.1 (List.replicate (MAX_MSG_SIZE + 1) 0)
      (by simp only [List.length_replicate]; omega)
  · exact (c6_size_limit.2.1 [0, 0, 0, 0, 0, 160, 0, 1] (by decide) (by decide)).trans (by decide)
  · exact c6_size_limit.2.2.1 (List.replicate MAX_MSG_SIZE 0) (by simp)
  · exact c6_size_limit.2.2.2 (List.replicate MAX_MSG_SIZE 0) [9] (by simp)

/-- Claim C8: writing any payload within the size limit as a frame and then
reading one frame from the resulting byte stream returns exactly the
original payload, leaving the rest of the stream untouched (and this covers
payload sizes 0, 1 and exactly `MAX_MSG_SIZE`). -/
theorem c8_frame_roundtrip :
    ∀ data rest : List Nat, data.length ≤ MAX_MSG_SIZE →
      (send_message data).2 = none ∧
      recv_message ((send_message data).1 ++ rest) = .ok data rest := by
  intro data rest h
  have hsend : send_message data = (toBytesBE 8 data.length ++ data, none) := by
    unfold send_message
    rw [if_neg (by omega)]
  constructor
  · rw [hsend]
  · rw [hsend]
    exact recv_frame data rest h

/-- Witness for C8 at a size-1 payload. -/
theorem c8_frame_roundtrip_witness :
    (send_message [42]).2 = none ∧
    recv_message ((send_message [42]).1 ++ [7]) = .ok [42] [7] :=
  c8_frame_roundtrip [42] [7] (by decide)

end SmoothRPC
